import Mathlib

/-!
Shallow embedding of the article discovery and deduplication engine of the
adu_rss repository, together with proofs about it.

Embedded source files:
* `storage/article_tracker.py` — the PostgreSQL-backed `ArticleTracker`
  (`is_new_article`, `mark_as_seen`, `filter_new_articles`).  The
  `seen_articles` table is a list of rows; the SQL statements the tracker
  issues are reified as an explicit statement type with an interpreter, so
  that read-only queries are visibly separated from the one mutating
  statement.
* `operators/custom_scrapers/japan_architects.py` — the pattern scraper's
  `fetch_articles` pipeline (database diff, per-run cap, age filter,
  persisting of every extracted URL) and `_is_within_age_limit`.
* `operators/custom_scrapers/landezine.py` — the vision scraper's
  `fetch_articles` pipeline (fuzzy headline diff, per-run cap, whole-day age
  filter, persisting of every extracted headline) and
  `_navigate_with_retry` (attempt counting, retry sleeps, outcome).

The tracker methods `get_stored_headlines`, `store_headlines`,
`find_new_headlines` and `update_headline_url` are called by the scrapers
but are absent from the sources; they are modelled from the spec
(`markSeen`, `findNewFuzzy`, `rebindIdentifier` of §4.1) and each such
definition is marked `Modelled from the spec:` in its doc comment.

Machine integers do not occur: Python integers are unbounded, timestamps are
modelled as `Int` seconds, and `timedelta.days` is floor division by 86400.
-/

namespace AduRss

/-- A row of the `seen_articles` table (schema in `_initialize_schema`):
source_id, article_url, article_guid, first_seen, last_checked.  Timestamps
are unix seconds. -/
structure SeenRow where
  source_id : String
  article_url : String
  article_guid : String
  first_seen : Int
  last_checked : Int
deriving DecidableEq

/-- The `seen_articles` table, in insertion order. -/
abbrev Db := List SeenRow

/-- The SQL statements issued by `ArticleTracker`:
the COUNT query of `is_new_article`, the `article_url = ANY(...)` query of
`filter_new_articles`, and the `INSERT ... ON CONFLICT (source_id,
article_url) DO UPDATE SET last_checked = $4` of `mark_as_seen`. -/
inductive SqlStmt where
  | selectCountSeen (source_id url : String)
  | selectSeenAmong (source_id : String) (urls : List String)
  | insertOnConflictSeen (source_id url guid : String) (now : Int)
deriving DecidableEq

/-- The value a statement returns: a COUNT, a list of fetched
`article_url`s, or a command-tag string (what `asyncpg`'s `execute`
returns). -/
inductive SqlValue where
  | count (n : Nat)
  | rows (urls : List String)
  | tag (t : String)
deriving DecidableEq

/-- Interpreter for the three statements against the table.  SELECTs leave
the table unchanged.  The upsert either appends a fresh row (first_seen =
last_checked = now) or updates last_checked of the conflicting row.  In
both cases the command tag is "INSERT 0 1": PostgreSQL counts rows updated
via ON CONFLICT DO UPDATE in the INSERT tag, so the tag does not
distinguish an insert from an update. -/
def execStmt (db : Db) : SqlStmt → Db × SqlValue
  | .selectCountSeen s u =>
      (db, .count (db.filter (fun r => r.source_id == s && r.article_url == u)).length)
  | .selectSeenAmong s urls =>
      (db, .rows ((db.filter (fun r => r.source_id == s && urls.contains r.article_url)).map
        (fun r => r.article_url)))
  | .insertOnConflictSeen s u g now =>
      if db.any (fun r => r.source_id == s && r.article_url == u) then
        (db.map (fun r =>
          if r.source_id == s && r.article_url == u then { r with last_checked := now } else r),
         .tag "INSERT 0 1")
      else
        (db ++ [⟨s, u, g, now, now⟩], .tag "INSERT 0 1")

/-- `ArticleTracker.is_new_article`: COUNT rows for (source_id, url),
new iff the count is zero. -/
def is_new_article (db : Db) (source_id url : String) : Db × Bool :=
  let r := execStmt db (.selectCountSeen source_id url)
  (r.1, match r.2 with
        | .count n => n == 0
        | _ => false)

/-- `ArticleTracker.filter_new_articles`: empty input short-circuits to [];
otherwise one `ANY(urls)` query builds the seen set and the input list is
filtered to URLs not in it, preserving input order. -/
def filter_new_articles (db : Db) (source_id : String) (urls : List String) :
    Db × List String :=
  if urls.isEmpty then (db, [])
  else
    let r := execStmt db (.selectSeenAmong source_id urls)
    let seen := match r.2 with
                | .rows rs => rs
                | _ => []
    (r.1, urls.filter (fun u => !(seen.contains u)))

/-- `ArticleTracker.mark_as_seen` with an explicit guid list (the Python
signature zips `urls` with `guids`): one upsert per pair, incrementing
`added` whenever the command tag is "INSERT 0 1". -/
def mark_as_seen_with (db : Db) (source_id : String) (urls guids : List String)
    (now : Int) : Db × Nat :=
  if urls.isEmpty then (db, 0)
  else
    (urls.zip guids).foldl
      (fun acc p =>
        let r := execStmt acc.1 (.insertOnConflictSeen source_id p.1 p.2 now)
        (r.1, if r.2 = .tag "INSERT 0 1" then acc.2 + 1 else acc.2))
      (db, 0)

/-- `ArticleTracker.mark_as_seen` on the default path `guids = urls`. -/
def mark_as_seen (db : Db) (source_id : String) (urls : List String) (now : Int) :
    Db × Nat :=
  mark_as_seen_with db source_id urls urls now

/-! ### Publication dates

The outcome of reading a candidate's publication-date text: the text can be
absent, present but unparseable (the scrapers swallow the parse error), or
parsed to a unix timestamp. -/

inductive DateText where
  | absent
  | unparseable
  | parsed (t : Int)
deriving DecidableEq

/-! ### Headline / URL store used by the scrapers

`japan_architects.py` and `landezine.py` call
`tracker.get_stored_headlines`, `tracker.store_headlines`,
`tracker.find_new_headlines` and `tracker.update_headline_url`; these
methods are not present in `storage/article_tracker.py`, so they are
modelled from the spec.  The store is the per-source list of stored
identifier strings (the scrapers always pass their own fixed source_id). -/

/-- Modelled from the spec: `ArticleTracker.get_stored_headlines` is absent
from the sources (only called by `japan_architects.py`); per §4.1 a novelty
read returns the stored identifiers of the source. -/
def get_stored_headlines (store : List String) : List String := store

/-- Modelled from the spec: `ArticleTracker.store_headlines` is absent from
the sources (only called); per §4.1 `markSeen` has upsert semantics —
identifiers absent from the store are inserted, present ones are kept. -/
def store_headlines (store : List String) (ids : List String) : List String :=
  ids.foldl (fun st i => if st.contains i then st else st ++ [i]) store

/-- Words of a character list: runs of non-whitespace characters, in
order. -/
def wordsOf (cs : List Char) : List (List Char) :=
  (cs.foldr
    (fun c acc =>
      if c.isWhitespace then [] :: acc
      else
        match acc with
        | [] => [[c]]
        | w :: ws => (c :: w) :: ws)
    []).filter (fun w => !w.isEmpty)

/-- Whitespace-normalized, case-folded text: lower-case the characters,
split into words, re-join with single spaces (Python
`" ".join(s.lower().split())`). -/
def normChars (s : String) : List Char :=
  List.intercalate [' '] (wordsOf (s.toList.map Char.toLower))

/-- Contiguous containment of `l` in `m` (substring on character lists). -/
def containsSub : List Char → List Char → Bool
  | l, [] => l.isEmpty
  | l, b :: bs => l.isPrefixOf (b :: bs) || containsSub l bs

/-- Similarity of two headline texts: substring containment in either
direction on whitespace-normalized, case-folded text (spec §4.1
`findNewFuzzy`). -/
def similarText (a b : String) : Bool :=
  containsSub (normChars a) (normChars b) || containsSub (normChars b) (normChars a)

/-- Modelled from the spec: `ArticleTracker.find_new_headlines` is absent
from the sources (only called by `landezine.py`); per §4.1 `findNewFuzzy`
it returns the subset of the candidate texts that have no
sufficiently-similar stored text, similarity being two-sided containment on
normalized text.  Input order is preserved. -/
def find_new_headlines (store : List String) (cands : List String) : List String :=
  cands.filter (fun c => !(store.any (fun s => similarText s c)))

namespace JapanArchitects

/-- MAX_ARTICLE_AGE_DAYS of `JapanArchitectsScraper`. -/
def MAX_ARTICLE_AGE_DAYS : Int := 30

/-- MAX_NEW_ARTICLES of `JapanArchitectsScraper`. -/
def MAX_NEW_ARTICLES : Nat := 15

/-- One listing entry extracted by `_extract_articles_from_html`:
absolute URL, title, optional date text. -/
structure Item where
  url : String
  title : String
  date : DateText
deriving DecidableEq

/-- `_is_within_age_limit`: a missing date is recent enough; a parse
failure is swallowed and treated as recent; otherwise the article date must
be at or after `now - MAX_ARTICLE_AGE_DAYS` — an exact cutoff comparison of
timestamps, not a whole-day comparison. -/
def is_within_age_limit (now : Int) : DateText → Bool
  | .absent => true
  | .unparseable => true
  | .parsed t => decide (now - MAX_ARTICLE_AGE_DAYS * 86400 ≤ t)

/-- The pure pipeline of `JapanArchitectsScraper.fetch_articles` (steps
3-5, the success path): diff the extracted items against the stored URLs,
cap at MAX_NEW_ARTICLES, apply the age filter, and persist every extracted
URL (new, already-seen, capped-out and too-old alike).  Returns the
delivered items and the store after the run. -/
def fetch_articles (store : List String) (extracted : List Item) (now : Int) :
    List Item × List String :=
  if extracted.isEmpty then ([], store)
  else
    let all_urls := extracted.map (fun it => it.url)
    let seen := get_stored_headlines store
    let newData := extracted.filter (fun it => !(seen.contains it.url))
    if newData.isEmpty then ([], store_headlines store all_urls)
    else
      ((newData.take MAX_NEW_ARTICLES).filter (fun it => is_within_age_limit now it.date),
       store_headlines store all_urls)

end JapanArchitects

namespace Landezine

/-- MAX_ARTICLE_AGE_DAYS of `LandezineScraper`. -/
def MAX_ARTICLE_AGE_DAYS : Int := 2

/-- The `max_new` cap set at the top of `LandezineScraper.fetch_articles`. -/
def max_new : Nat := 10

/-- What processing one new headline yields when the headline is found in
the HTML and the article page is reached: title and link from the page and
the publication-date outcome. -/
structure Resolved where
  title : String
  link : String
  date : DateText
deriving DecidableEq

/-- Modelled from the spec: `_validate_article` lives in the base class,
absent from the sources; per §9 a candidate is valid iff title and link are
non-empty. -/
def validate_article (r : Resolved) : Bool := !r.title.isEmpty && !r.link.isEmpty

/-- Python `(current_date - article_date).days`: floor division of the
difference in seconds by 86400. -/
def days_old (now t : Int) : Int := Int.fdiv (now - t) 86400

/-- The date filter inside `fetch_articles` step 7: a parsed date is kept
iff it is at most MAX_ARTICLE_AGE_DAYS whole days old; a missing or
unparseable date is kept ("No date found - including anyway"). -/
def freshOk (now : Int) : DateText → Bool
  | .parsed t => decide (days_old now t ≤ MAX_ARTICLE_AGE_DAYS)
  | _ => true

/-- Modelled from the spec: `ArticleTracker.update_headline_url` is absent
from the sources (only called); per §4.1 `rebindIdentifier` the stored
headline identifier is upgraded to the resolved URL. -/
def update_headline_url (store : List String) (headline url : String) : List String :=
  store.map (fun x => if x == headline then url else x)

/-- Processing of one new headline in `fetch_articles` step 7.  A headline
whose link is not found, whose article navigation fails, or whose
processing raises, is skipped (`resolve` returns none for all three).
Otherwise the date filter runs; a surviving, valid article is appended and
its stored identifier is rebound to the URL. -/
def step (resolve : String → Option Resolved) (now : Int)
    (acc : List Resolved × List String) (h : String) : List Resolved × List String :=
  match resolve h with
  | none => acc
  | some r =>
      if freshOk now r.date then
        if validate_article r then (acc.1 ++ [r], update_headline_url acc.2 h r.link)
        else acc
      else acc

/-- The pure pipeline of `LandezineScraper.fetch_articles` (steps 5-8, the
success path): extract headlines, keep the fuzzily-new ones, cap at
max_new, process each, and finally persist every extracted headline.  When
there is nothing to extract or nothing new, the run returns early without
storing.  Returns the delivered articles and the store after the run. -/
def fetch_articles (resolve : String → Option Resolved) (now : Int)
    (store : List String) (current_headlines : List String) :
    List Resolved × List String :=
  if current_headlines.isEmpty then ([], store)
  else
    let newH := find_new_headlines store current_headlines
    if newH.isEmpty then ([], store)
    else
      let res := (newH.take max_new).foldl (step resolve now) ([], store)
      (res.1, store_headlines res.2 current_headlines)

/-- Classification of one navigation attempt in `_navigate_with_retry`:
success, a 403 soft block, an off-host redirect, or a raised exception. -/
inductive NavOutcome where
  | ok
  | soft
  | redirect
  | err
deriving DecidableEq

/-- How `_navigate_with_retry` ends: `return True`, `return False`, or the
last exception propagating out of the final attempt. -/
inductive NavResult where
  | success
  | failure
  | raised
deriving DecidableEq

/-- The `for attempt in range(max_retries)` loop of `_navigate_with_retry`,
structured on the remaining iteration count (`fuel` = max_retries -
attempt).  Returns (number of navigation attempts made, the retry sleeps in
seconds in order, the outcome).  A 403 sleeps the fixed 5-second cool-down
and continues; an off-host redirect sleeps 3 seconds and continues unless
this was the last iteration, in which case False is returned; an exception
sleeps `3 * (attempt + 1)` seconds and continues unless this was the last
iteration, in which case it propagates.  Falling off the loop returns
False. -/
def navLoop (outcomes : Nat → NavOutcome) : Nat → Nat → Nat × List Nat × NavResult
  | _, 0 => (0, [], .failure)
  | attempt, fuel + 1 =>
      match outcomes attempt with
      | .ok => (1, [], .success)
      | .soft =>
          let r := navLoop outcomes (attempt + 1) fuel
          (r.1 + 1, 5 :: r.2.1, r.2.2)
      | .redirect =>
          if 0 < fuel then
            let r := navLoop outcomes (attempt + 1) fuel
            (r.1 + 1, 3 :: r.2.1, r.2.2)
          else (1, [], .failure)
      | .err =>
          if 0 < fuel then
            let r := navLoop outcomes (attempt + 1) fuel
            (r.1 + 1, 3 * (attempt + 1) :: r.2.1, r.2.2)
          else (1, [], .raised)

/-- `_navigate_with_retry` given the per-attempt outcomes and
`max_retries`. -/
def navigate_with_retry (outcomes : Nat → NavOutcome) (max_retries : Nat) :
    Nat × List Nat × NavResult :=
  navLoop outcomes 0 max_retries

end Landezine

/-- The freshness predicate exactly as the spec words it (§4.4 `isFresh`),
stated for comparison with the scrapers' checks: `now - timestamp <=
maxAgeDays` in whole days; a null timestamp is always fresh. -/
def isFresh_spec (now maxAgeDays : Int) : DateText → Bool
  | .parsed t => decide (Int.fdiv (now - t) 86400 ≤ maxAgeDays)
  | _ => true

end AduRss

namespace AduRss

/-! ### Helper lemmas -/

theorem mem_store_headlines_left (a : String) :
    ∀ (ids store : List String), a ∈ store → a ∈ store_headlines store ids
  | [], _, ha => ha
  | i :: ids, store, ha => by
      have h1 : a ∈ (if store.contains i then store else store ++ [i]) := by
        split
        · exact ha
        · exact List.mem_append_left _ ha
      exact mem_store_headlines_left a ids _ h1

theorem mem_store_headlines_right (a : String) :
    ∀ (ids store : List String), a ∈ ids → a ∈ store_headlines store ids
  | i :: ids, store, ha => by
      rcases List.mem_cons.mp ha with h | h
      · subst h
        have h1 : a ∈ (if store.contains a then store else store ++ [a]) := by
          by_cases hc : store.contains a = true
          · rw [if_pos hc]
            simpa using hc
          · rw [if_neg hc]
            exact List.mem_append_right _ (List.mem_singleton_self a)
        exact mem_store_headlines_left a ids _ h1
      · exact mem_store_headlines_right a ids _ h

theorem isPrefixOf_self (l : List Char) : l.isPrefixOf l = true := by
  induction l with
  | nil => rfl
  | cons c cs ih => simp [List.isPrefixOf_cons₂, ih]

theorem containsSub_self (l : List Char) : containsSub l l = true := by
  cases l with
  | nil => rfl
  | cons c cs => simp [containsSub, isPrefixOf_self]

theorem similarText_self (a : String) : similarText a a = true := by
  simp [similarText, containsSub_self]

theorem find_new_headlines_eq_nil (store cands : List String)
    (h : ∀ c ∈ cands, c ∈ store) : find_new_headlines store cands = [] := by
  rw [find_new_headlines, List.filter_eq_nil_iff]
  intro c hc
  simp only [Bool.not_eq_true', Bool.not_eq_false]
  exact List.any_eq_true.mpr ⟨c, h c hc, similarText_self c⟩

theorem ja_fetch_snd (store : List String) (ex : List JapanArchitects.Item) (now : Int)
    (hne : ex ≠ []) :
    (JapanArchitects.fetch_articles store ex now).2
      = store_headlines store (ex.map (fun it => it.url)) := by
  rw [JapanArchitects.fetch_articles, if_neg (show ¬(ex.isEmpty = true) by simpa using hne)]
  dsimp only
  split
  · rfl
  · rfl

theorem lz_step_fst_cases (resolve : String → Option Landezine.Resolved) (now : Int)
    (acc : List Landezine.Resolved × List String) (h : String) :
    (Landezine.step resolve now acc h).1 = acc.1 ∨
    ∃ r, Landezine.freshOk now r.date = true ∧
      (Landezine.step resolve now acc h).1 = acc.1 ++ [r] := by
  cases hr : resolve h with
  | none => left; simp [Landezine.step, hr]
  | some r =>
      by_cases hf : Landezine.freshOk now r.date = true
      · by_cases hv : Landezine.validate_article r = true
        · right
          exact ⟨r, hf, by simp [Landezine.step, hr, hf, hv]⟩
        · left; simp [Landezine.step, hr, hf, hv]
      · left; simp [Landezine.step, hr, hf]

theorem lz_fold_fresh (resolve : String → Option Landezine.Resolved) (now : Int) :
    ∀ (l : List String) (acc : List Landezine.Resolved × List String)
      (a : Landezine.Resolved),
      a ∈ (l.foldl (Landezine.step resolve now) acc).1 →
      a ∈ acc.1 ∨ Landezine.freshOk now a.date = true
  | [], _, _, ha => Or.inl ha
  | h :: l, acc, a, ha => by
      rcases lz_fold_fresh resolve now l _ a ha with h1 | h1
      · rcases lz_step_fst_cases resolve now acc h with h2 | ⟨r, hf, h2⟩
        · rw [h2] at h1
          exact Or.inl h1
        · rw [h2] at h1
          rcases List.mem_append.mp h1 with h3 | h3
          · exact Or.inl h3
          · right
            rw [List.mem_singleton.mp h3]
            exact hf
      · exact Or.inr h1

theorem lz_step_fst_length (resolve : String → Option Landezine.Resolved) (now : Int)
    (acc : List Landezine.Resolved × List String) (h : String) :
    (Landezine.step resolve now acc h).1.length ≤ acc.1.length + 1 := by
  rcases lz_step_fst_cases resolve now acc h with h2 | ⟨r, _, h2⟩
  · rw [h2]
    exact Nat.le_succ _
  · rw [h2]
    simp

theorem lz_fold_length (resolve : String → Option Landezine.Resolved) (now : Int) :
    ∀ (l : List String) (acc : List Landezine.Resolved × List String),
      (l.foldl (Landezine.step resolve now) acc).1.length ≤ acc.1.length + l.length
  | [], acc => by simp
  | h :: l, acc => by
      have h1 := lz_fold_length resolve now l (Landezine.step resolve now acc h)
      have h2 := lz_step_fst_length resolve now acc h
      simp only [List.foldl_cons, List.length_cons]
      omega

theorem lz_fold_mem_preserved (resolve : String → Option Landezine.Resolved) (now : Int) :
    ∀ (l : List String) (acc : List Landezine.Resolved × List String)
      (a : Landezine.Resolved), a ∈ acc.1 →
      a ∈ (l.foldl (Landezine.step resolve now) acc).1
  | [], _, _, ha => ha
  | h :: l, acc, a, ha => by
      apply lz_fold_mem_preserved resolve now l
      rcases lz_step_fst_cases resolve now acc h with h2 | ⟨r, _, h2⟩
      · rw [h2]
        exact ha
      · rw [h2]
        exact List.mem_append_left _ ha

theorem lz_fold_mem_insert (resolve : String → Option Landezine.Resolved) (now : Int) :
    ∀ (l : List String) (acc : List Landezine.Resolved × List String)
      (h : String) (r : Landezine.Resolved), h ∈ l → resolve h = some r →
      Landezine.freshOk now r.date = true → Landezine.validate_article r = true →
      r ∈ (l.foldl (Landezine.step resolve now) acc).1
  | h' :: l, acc, h, r, hmem, hres, hf, hv => by
      rcases List.mem_cons.mp hmem with he | hmem2
      · subst he
        apply lz_fold_mem_preserved resolve now l
        simp only [Landezine.step, hres, if_pos hf, if_pos hv]
        exact List.mem_append_right _ (List.mem_singleton_self r)
      · exact lz_fold_mem_insert resolve now l _ h r hmem2 hres hf hv

theorem navLoop_soft (outcomes : Nat → Landezine.NavOutcome)
    (hsoft : ∀ i, outcomes i = Landezine.NavOutcome.soft) :
    ∀ (fuel attempt : Nat),
      Landezine.navLoop outcomes attempt fuel
        = (fuel, List.replicate fuel 5, Landezine.NavResult.failure)
  | 0, _ => rfl
  | fuel + 1, attempt => by
      have h1 := navLoop_soft outcomes hsoft fuel (attempt + 1)
      simp only [Landezine.navLoop, hsoft attempt, h1, List.replicate_succ]

theorem ja_fetch_eq (store : List String) (ex : List JapanArchitects.Item) (now : Int)
    (hne : ex ≠ []) :
    JapanArchitects.fetch_articles store ex now
      = (if (ex.filter
            (fun it => !((get_stored_headlines store).contains it.url))).isEmpty then
          ([], store_headlines store (ex.map (fun it => it.url)))
        else
          (((ex.filter (fun it => !((get_stored_headlines store).contains it.url))).take
              JapanArchitects.MAX_NEW_ARTICLES).filter
            (fun it => JapanArchitects.is_within_age_limit now it.date),
           store_headlines store (ex.map (fun it => it.url)))) := by
  rw [JapanArchitects.fetch_articles, if_neg (show ¬(ex.isEmpty = true) by simpa using hne)]

theorem lz_fetch_eq (resolve : String → Option Landezine.Resolved) (m : Int)
    (storeL hs : List String) (hhs : hs ≠ [])
    (hnew : find_new_headlines storeL hs ≠ []) :
    Landezine.fetch_articles resolve m storeL hs
      = ((((find_new_headlines storeL hs).take Landezine.max_new).foldl
            (Landezine.step resolve m) ([], storeL)).1,
         store_headlines
           (((find_new_headlines storeL hs).take Landezine.max_new).foldl
             (Landezine.step resolve m) ([], storeL)).2 hs) := by
  rw [Landezine.fetch_articles, if_neg (show ¬(hs.isEmpty = true) by simpa using hhs)]
  dsimp only
  rw [if_neg (show ¬((find_new_headlines storeL hs).isEmpty = true) by simpa using hnew)]

theorem seen_among_contains (db : Db) (s u : String) (urls : List String) (hu : u ∈ urls) :
    ((db.filter (fun r => r.source_id == s && urls.contains r.article_url)).map
        (fun r => r.article_url)).contains u
      = !((db.filter (fun r => r.source_id == s && r.article_url == u)).length == 0) := by
  rw [Bool.eq_iff_iff]
  constructor
  · intro h1
    have hm : u ∈ (db.filter (fun r => r.source_id == s && urls.contains r.article_url)).map
        (fun r => r.article_url) := by simpa using h1
    rcases List.mem_map.mp hm with ⟨r, hrf, hru⟩
    rcases List.mem_filter.mp hrf with ⟨hrdb, hp⟩
    simp only [Bool.and_eq_true, beq_iff_eq] at hp
    have hr2 : r ∈ db.filter (fun r => r.source_id == s && r.article_url == u) :=
      List.mem_filter.mpr ⟨hrdb, by simp [hp.1, hru]⟩
    have hlen : (db.filter (fun r => r.source_id == s && r.article_url == u)).length ≠ 0 := by
      have := List.length_pos.mpr (List.ne_nil_of_mem hr2)
      omega
    simpa using hlen
  · intro h2
    have hlen : (db.filter (fun r => r.source_id == s && r.article_url == u)).length ≠ 0 := by
      simpa using h2
    have hne : db.filter (fun r => r.source_id == s && r.article_url == u) ≠ [] := by
      intro hnil
      rw [hnil] at hlen
      exact hlen rfl
    rcases List.exists_mem_of_ne_nil _ hne with ⟨r, hr⟩
    rcases List.mem_filter.mp hr with ⟨hrdb, hp⟩
    simp only [Bool.and_eq_true, beq_iff_eq] at hp
    have hm : u ∈ (db.filter (fun r => r.source_id == s && urls.contains r.article_url)).map
        (fun r => r.article_url) := by
      refine List.mem_map.mpr ⟨r, List.mem_filter.mpr ⟨hrdb, ?_⟩, hp.2⟩
      simp [hp.1, hp.2, hu]
    simpa using hm

/-! ### Claim theorems -/

/-- C3: `filter_new_articles(source_id, urls)` returns exactly those
elements of `urls` for which `is_new_article(source_id, u)` would
independently return true, and the survivors keep the relative order of the
input list (the result is the order-preserving filter of the input, hence a
sublist of it). -/
theorem filter_new_articles_matches_single_checks (db : Db) (s : String)
    (urls : List String) :
    (filter_new_articles db s urls).2
      = urls.filter (fun u => (is_new_article db s u).2) ∧
    ((filter_new_articles db s urls).2).Sublist urls := by
  have hmain : (filter_new_articles db s urls).2
      = urls.filter (fun u => (is_new_article db s u).2) := by
    by_cases hemp : urls.isEmpty = true
    · have h0 : urls = [] := by simpa using hemp
      subst h0
      rfl
    · rw [filter_new_articles, if_neg hemp]
      show urls.filter
          (fun u => !(((db.filter
            (fun r => r.source_id == s && urls.contains r.article_url)).map
              (fun r => r.article_url)).contains u))
        = urls.filter (fun u => (is_new_article db s u).2)
      apply List.filter_congr
      intro u hu
      show (!(((db.filter
            (fun r => r.source_id == s && urls.contains r.article_url)).map
              (fun r => r.article_url)).contains u))
        = (is_new_article db s u).2
      rw [seen_among_contains db s u urls hu, Bool.not_not]
      rfl
  exact ⟨hmain, hmain ▸ List.filter_sublist urls⟩

/-- C4 (evaluation at the failing input): on an empty table, marking
["u"] as seen for source "s" inserts one row and returns 1; immediately
repeating the call raises no error and leaves the single row in place with
only last_checked advanced — but it returns 1 again, not 0, because
PostgreSQL reports the command tag INSERT 0 1 for a row updated through ON
CONFLICT DO UPDATE, so the code's tag comparison counts updates as
inserts. -/
theorem mark_as_seen_repeat_counts_updates :
    (mark_as_seen [] "s" ["u"] 10).2 = 1 ∧
    (mark_as_seen [] "s" ["u"] 10).1 = [⟨"s", "u", "u", 10, 10⟩] ∧
    (mark_as_seen (mark_as_seen [] "s" ["u"] 10).1 "s" ["u"] 20).2 = 1 ∧
    (mark_as_seen (mark_as_seen [] "s" ["u"] 10).1 "s" ["u"] 20).1
      = [⟨"s", "u", "u", 10, 20⟩] := by
  decide

/-- C5: `find_new_headlines` returns exactly the candidates with no stored
text similar to them (two-sided containment on whitespace-normalized,
case-folded text); a candidate differing from a stored headline only by
case and a trailing suffix is not new, an unrelated headline is. -/
theorem find_new_headlines_fuzzy_containment (store cands : List String)
    (c : String) :
    ((c ∈ find_new_headlines store cands) ↔
      (c ∈ cands ∧ ∀ s ∈ store, similarText s c = false)) ∧
    find_new_headlines ["new park opens in oslo (full review)"]
      ["New Park Opens In Oslo"] = [] ∧
    find_new_headlines ["new park opens in oslo (full review)"]
      ["Unrelated Headline About Bridges"] = ["Unrelated Headline About Bridges"] := by
  refine ⟨?_, by decide, by decide⟩
  simp [find_new_headlines, List.mem_filter]

/-- C10: the novelty queries are read-only — `is_new_article` and
`filter_new_articles` return the table unchanged for every source and
input, because they only execute SELECT statements. -/
theorem novelty_checks_read_only (db : Db) (s u : String) (urls : List String) :
    (is_new_article db s u).1 = db ∧ (filter_new_articles db s urls).1 = db := by
  refine ⟨rfl, ?_⟩
  rw [filter_new_articles]
  split
  · rfl
  · rfl

/-- C1: running either scraper's fetch pipeline twice in immediate
succession against the same listing (the second run seeing the store state
left by the first) delivers nothing on the second run — every identifier
extracted on the second run is already recorded, so the returned list is
empty, for the pattern scraper and for the vision scraper alike. -/
theorem pipeline_idempotent_second_run_empty
    (storeJ : List String) (ex : List JapanArchitects.Item) (n1 n2 : Int)
    (resolve : String → Option Landezine.Resolved) (m1 m2 : Int)
    (storeL : List String) (hs : List String) :
    (JapanArchitects.fetch_articles
        (JapanArchitects.fetch_articles storeJ ex n1).2 ex n2).1 = [] ∧
    (Landezine.fetch_articles resolve m2
        (Landezine.fetch_articles resolve m1 storeL hs).2 hs).1 = [] := by
  constructor
  · by_cases hex : ex = []
    · subst hex
      rfl
    · have hstore := ja_fetch_snd storeJ ex n1 hex
      have hfilter : ex.filter (fun it =>
          !((get_stored_headlines
              (JapanArchitects.fetch_articles storeJ ex n1).2).contains it.url)) = [] := by
        rw [List.filter_eq_nil_iff]
        intro it hit
        have hmem : it.url ∈ (JapanArchitects.fetch_articles storeJ ex n1).2 := by
          rw [hstore]
          exact mem_store_headlines_right _ _ _ (List.mem_map_of_mem _ hit)
        simp [get_stored_headlines, hmem]
      rw [ja_fetch_eq _ ex n2 hex,
        if_pos (show (ex.filter (fun it =>
          !((get_stored_headlines
              (JapanArchitects.fetch_articles storeJ ex n1).2).contains it.url))).isEmpty
            = true by
          simp only [List.isEmpty_eq_true]
          exact hfilter)]
  · by_cases hhs : hs = []
    · subst hhs
      rfl
    · by_cases hnew : find_new_headlines storeL hs = []
      · have h1 : (Landezine.fetch_articles resolve m1 storeL hs).2 = storeL := by
          rw [Landezine.fetch_articles, if_neg (show ¬(hs.isEmpty = true) by simpa using hhs)]
          dsimp only
          rw [if_pos (show (find_new_headlines storeL hs).isEmpty = true by simp [hnew])]
        rw [h1, Landezine.fetch_articles, if_neg (show ¬(hs.isEmpty = true) by simpa using hhs)]
        dsimp only
        rw [if_pos (show (find_new_headlines storeL hs).isEmpty = true by simp [hnew])]
      · have hsub : ∀ c ∈ hs, c ∈ (Landezine.fetch_articles resolve m1 storeL hs).2 := by
          intro c hc
          rw [lz_fetch_eq resolve m1 storeL hs hhs hnew]
          exact mem_store_headlines_right _ _ _ hc
        have h2 : find_new_headlines (Landezine.fetch_articles resolve m1 storeL hs).2 hs = [] :=
          find_new_headlines_eq_nil _ _ hsub
        rw [Landezine.fetch_articles, if_neg (show ¬(hs.isEmpty = true) by simpa using hhs)]
        dsimp only
        rw [if_pos (show (find_new_headlines
          (Landezine.fetch_articles resolve m1 storeL hs).2 hs).isEmpty = true by simp [h2])]

/-- C2: a candidate extracted in a run whose publication timestamp fails
the freshness check never appears in the list the run returns, yet its
identifier is persisted to the seen store in that same run — for the
pattern scraper (a listing item whose date fails `_is_within_age_limit`)
and for the vision scraper (a processed headline whose resolved date fails
the whole-day age check). -/
theorem freshness_rejected_never_delivered_but_persisted
    (storeJ : List String) (ex : List JapanArchitects.Item) (now : Int)
    (it : JapanArchitects.Item) (hit : it ∈ ex)
    (hstale : JapanArchitects.is_within_age_limit now it.date = false)
    (resolve : String → Option Landezine.Resolved) (m : Int)
    (storeL : List String) (hs : List String) (hl : String)
    (hproc : hl ∈ (find_new_headlines storeL hs).take Landezine.max_new)
    (r : Landezine.Resolved) (hres : resolve hl = some r)
    (hrstale : Landezine.freshOk m r.date = false) :
    it ∉ (JapanArchitects.fetch_articles storeJ ex now).1 ∧
    it.url ∈ (JapanArchitects.fetch_articles storeJ ex now).2 ∧
    r ∉ (Landezine.fetch_articles resolve m storeL hs).1 ∧
    hl ∈ (Landezine.fetch_articles resolve m storeL hs).2 := by
  have hexne : ex ≠ [] := List.ne_nil_of_mem hit
  have hlnew : hl ∈ find_new_headlines storeL hs := List.mem_of_mem_take hproc
  have hnew : find_new_headlines storeL hs ≠ [] := List.ne_nil_of_mem hlnew
  have hlhs : hl ∈ hs := List.mem_of_mem_filter hlnew
  have hhs : hs ≠ [] := List.ne_nil_of_mem hlhs
  refine ⟨?_, ?_, ?_, ?_⟩
  · intro hin
    rw [ja_fetch_eq storeJ ex now hexne] at hin
    split at hin
    · simp at hin
    · have := (List.mem_filter.mp hin).2
      rw [hstale] at this
      cases this
  · rw [ja_fetch_snd storeJ ex now hexne]
    exact mem_store_headlines_right _ _ _ (List.mem_map_of_mem _ hit)
  · intro hin
    rw [lz_fetch_eq resolve m storeL hs hhs hnew] at hin
    rcases lz_fold_fresh resolve m _ _ r hin with h1 | h1
    · simp at h1
    · rw [hrstale] at h1
      cases h1
  · rw [lz_fetch_eq resolve m storeL hs hhs hnew]
    exact mem_store_headlines_right _ _ _ hlhs

/-- C2 witness: concrete stale candidates (timestamp 0 at a now of 40
days) for both scrapers, with all hypotheses discharged by evaluation. -/
theorem freshness_rejected_witness :
    (⟨"u", "t", DateText.parsed 0⟩ : JapanArchitects.Item)
        ∈ [(⟨"u", "t", DateText.parsed 0⟩ : JapanArchitects.Item)] ∧
    JapanArchitects.is_within_age_limit (40 * 86400) (DateText.parsed 0) = false ∧
    "h1" ∈ (find_new_headlines [] ["h1"]).take Landezine.max_new ∧
    Landezine.freshOk (40 * 86400) (DateText.parsed 0) = false ∧
    ((⟨"u", "t", DateText.parsed 0⟩ : JapanArchitects.Item)
        ∉ (JapanArchitects.fetch_articles []
            [⟨"u", "t", DateText.parsed 0⟩] (40 * 86400)).1 ∧
     "u" ∈ (JapanArchitects.fetch_articles []
            [⟨"u", "t", DateText.parsed 0⟩] (40 * 86400)).2 ∧
     (⟨"T", "L", DateText.parsed 0⟩ : Landezine.Resolved)
        ∉ (Landezine.fetch_articles
            (fun _ => some ⟨"T", "L", DateText.parsed 0⟩) (40 * 86400) [] ["h1"]).1 ∧
     "h1" ∈ (Landezine.fetch_articles
            (fun _ => some ⟨"T", "L", DateText.parsed 0⟩) (40 * 86400) [] ["h1"]).2) :=
  ⟨by decide, by decide, by decide, by decide,
   freshness_rejected_never_delivered_but_persisted
     [] [⟨"u", "t", DateText.parsed 0⟩] (40 * 86400)
     ⟨"u", "t", DateText.parsed 0⟩ (by decide) (by decide)
     (fun _ => some ⟨"T", "L", DateText.parsed 0⟩) (40 * 86400)
     [] ["h1"] "h1" (by decide)
     ⟨"T", "L", DateText.parsed 0⟩ rfl (by decide)⟩

/-- C6 counterexample: sixteen new listing items against an empty store.
The run delivers exactly MAX_NEW_ARTICLES = 15 of them, but the sixteenth
URL "u15" does not remain unseen — it is persisted by the same run, and a
second run against the same listing returns nothing, so the excess is never
picked up as new later. -/
theorem per_run_cap_excess_persisted_cex :
    (let ex : List JapanArchitects.Item :=
      (List.range 16).map (fun i => ⟨"u" ++ toString i, "t", DateText.absent⟩)
     (JapanArchitects.fetch_articles [] ex 0).1.length = 15 ∧
     "u15" ∈ (JapanArchitects.fetch_articles [] ex 0).2 ∧
     (JapanArchitects.fetch_articles
        (JapanArchitects.fetch_articles [] ex 0).2 ex 0).1 = []) := by
  decide

/-- C6 amended: in one invocation at most MAX_NEW_ARTICLES = 15 (pattern
scraper) respectively max_new = 10 (vision scraper) candidates are
delivered, but identifiers beyond the cap do not remain unseen: the
pattern scraper persists every extracted URL whenever extraction is
non-empty, and the vision scraper persists every extracted headline
whenever at least one new headline was found, so the excess is dropped
from future runs rather than picked up next run. -/
theorem per_run_cap_and_excess_persisted
    (storeJ : List String) (ex : List JapanArchitects.Item) (n : Int)
    (it : JapanArchitects.Item) (hit : it ∈ ex)
    (resolve : String → Option Landezine.Resolved) (m : Int)
    (storeL hs : List String) (c : String) (hc : c ∈ hs)
    (hnew : find_new_headlines storeL hs ≠ []) :
    (JapanArchitects.fetch_articles storeJ ex n).1.length
        ≤ JapanArchitects.MAX_NEW_ARTICLES ∧
    (Landezine.fetch_articles resolve m storeL hs).1.length ≤ Landezine.max_new ∧
    it.url ∈ (JapanArchitects.fetch_articles storeJ ex n).2 ∧
    c ∈ (Landezine.fetch_articles resolve m storeL hs).2 := by
  have hexne : ex ≠ [] := List.ne_nil_of_mem hit
  have hhs : hs ≠ [] := List.ne_nil_of_mem hc
  refine ⟨?_, ?_, ?_, ?_⟩
  · rw [ja_fetch_eq storeJ ex n hexne]
    split
    · simp
    · calc (((ex.filter (fun it =>
              !((get_stored_headlines storeJ).contains it.url))).take
                JapanArchitects.MAX_NEW_ARTICLES).filter
              (fun it => JapanArchitects.is_within_age_limit n it.date)).length
          ≤ ((ex.filter (fun it =>
              !((get_stored_headlines storeJ).contains it.url))).take
                JapanArchitects.MAX_NEW_ARTICLES).length :=
            List.length_filter_le _ _
        _ ≤ JapanArchitects.MAX_NEW_ARTICLES := by
            rw [List.length_take]
            exact Nat.min_le_left _ _
  · rw [lz_fetch_eq resolve m storeL hs hhs hnew]
    dsimp only
    have h1 := lz_fold_length resolve m
      ((find_new_headlines storeL hs).take Landezine.max_new) ([], storeL)
    have h2 : ((find_new_headlines storeL hs).take Landezine.max_new).length
        ≤ Landezine.max_new := by
      rw [List.length_take]
      exact Nat.min_le_left _ _
    simp only [List.length_nil] at h1
    omega
  · rw [ja_fetch_snd storeJ ex n hexne]
    exact mem_store_headlines_right _ _ _ (List.mem_map_of_mem _ hit)
  · rw [lz_fetch_eq resolve m storeL hs hhs hnew]
    exact mem_store_headlines_right _ _ _ hc

/-- C6 witness: hypotheses of the amended cap theorem discharged at a
one-item listing for each scraper. -/
theorem per_run_cap_and_excess_persisted_witness :
    (⟨"u", "t", DateText.absent⟩ : JapanArchitects.Item)
        ∈ [(⟨"u", "t", DateText.absent⟩ : JapanArchitects.Item)] ∧
    "h1" ∈ ["h1"] ∧
    find_new_headlines [] ["h1"] ≠ [] ∧
    ((JapanArchitects.fetch_articles [] [⟨"u", "t", DateText.absent⟩] 0).1.length
        ≤ JapanArchitects.MAX_NEW_ARTICLES ∧
     (Landezine.fetch_articles (fun _ => none) 0 [] ["h1"]).1.length
        ≤ Landezine.max_new ∧
     "u" ∈ (JapanArchitects.fetch_articles [] [⟨"u", "t", DateText.absent⟩] 0).2 ∧
     "h1" ∈ (Landezine.fetch_articles (fun _ => none) 0 [] ["h1"]).2) :=
  ⟨by decide, by decide, by decide,
   per_run_cap_and_excess_persisted [] [⟨"u", "t", DateText.absent⟩] 0
     ⟨"u", "t", DateText.absent⟩ (by decide) (fun _ => none) 0
     [] ["h1"] "h1" (by decide) (by decide)⟩

/-- C7 counterexample: against a target that soft-blocks every attempt
(always answers 403) with max_retries = 3, `_navigate_with_retry` makes
exactly 3 navigation attempts — `for attempt in range(max_retries)` — not
4, sleeping the fixed 5-second cool-down each time, and ends by returning
False rather than raising any NavigationFailed error. -/
theorem navigate_retry_three_attempts_cex :
    Landezine.navigate_with_retry (fun _ => Landezine.NavOutcome.soft) 3
      = (3, [5, 5, 5], Landezine.NavResult.failure) ∧
    (3 : Nat) ≠ 4 := by
  decide

/-- C7 amended: for every max_retries, an always-soft-blocking target
yields exactly max_retries total navigation attempts (the initial attempt
counts toward max_retries), with the fixed 5-second cool-down before each
successive attempt, and `_navigate_with_retry` returns False — there is no
NavigationFailed exception in the code. -/
theorem navigate_retry_soft_attempt_count (m : Nat) :
    Landezine.navigate_with_retry (fun _ => Landezine.NavOutcome.soft) m
      = (m, List.replicate m 5, Landezine.NavResult.failure) :=
  navLoop_soft (fun _ => Landezine.NavOutcome.soft) (fun _ => rfl) m 0

/-- C8 (evaluation at the failing input): with max_retries = 4 and a
navigation that raises on every attempt, the sleeps inserted before the
retries are 3, 6, 9 seconds — the code computes `3 * (attempt + 1)`, a
linear schedule, although its own inline comment says "Exponential
backoff" (base 3 doubling would give 3, 6, 12: the third delay, 9, is
strictly below 3 * 2 ^ 2 = 12).  On soft blocks only the fixed 5-second
cool-down is slept — no growing backoff component at all. -/
theorem backoff_schedule_linear_eval :
    (Landezine.navigate_with_retry (fun _ => Landezine.NavOutcome.err) 4).2.1
      = [3, 6, 9] ∧
    (Landezine.navigate_with_retry (fun _ => Landezine.NavOutcome.soft) 4).2.1
      = [5, 5, 5, 5] ∧
    [3, 6, 9].getD 2 0 < 3 * 2 ^ 2 := by
  decide

/-- C9 counterexample: a parsed timestamp exactly 30 days and one second
old is 30 whole days old, so the spec's whole-day freshness predicate with
maxAgeDays = 30 accepts it, but the pattern scraper's
`_is_within_age_limit` compares full timestamps against `now - 30 days`
and rejects it. -/
theorem freshness_whole_days_cex :
    JapanArchitects.is_within_age_limit (30 * 86400 + 1) (DateText.parsed 0) = false ∧
    isFresh_spec (30 * 86400 + 1) 30 (DateText.parsed 0) = true := by
  decide

/-- C9 amended: an absent or unparseable publication date never raises —
both scrapers treat it as fresh and such a candidate is included in the
returned articles rather than dropped.  A parsed timestamp passes the
pattern scraper's check iff the timestamp is at or after `now - 30 days`
(an exact comparison with sub-day precision, not whole days), and passes
the vision scraper's check iff `now - timestamp` is at most 2 whole days
(floor division by 86400, matching Python's timedelta.days). -/
theorem date_handling_amended (now t : Int)
    (storeJ : List String) (ex : List JapanArchitects.Item)
    (it : JapanArchitects.Item)
    (hmem : it ∈ (ex.filter
      (fun x => !((get_stored_headlines storeJ).contains x.url))).take
        JapanArchitects.MAX_NEW_ARTICLES)
    (hdate : it.date = DateText.absent)
    (resolve : String → Option Landezine.Resolved) (storeL hs : List String)
    (hl : String)
    (hln : hl ∈ (find_new_headlines storeL hs).take Landezine.max_new)
    (r : Landezine.Resolved) (hres : resolve hl = some r)
    (hrd : r.date = DateText.absent) (hv : Landezine.validate_article r = true) :
    JapanArchitects.is_within_age_limit now DateText.absent = true ∧
    JapanArchitects.is_within_age_limit now DateText.unparseable = true ∧
    (JapanArchitects.is_within_age_limit now (DateText.parsed t) = true ↔
      now - 30 * 86400 ≤ t) ∧
    Landezine.freshOk now DateText.absent = true ∧
    Landezine.freshOk now DateText.unparseable = true ∧
    (Landezine.freshOk now (DateText.parsed t) = true ↔
      Int.fdiv (now - t) 86400 ≤ 2) ∧
    it ∈ (JapanArchitects.fetch_articles storeJ ex now).1 ∧
    r ∈ (Landezine.fetch_articles resolve now storeL hs).1 := by
  have hitf : it ∈ ex.filter
      (fun x => !((get_stored_headlines storeJ).contains x.url)) :=
    List.mem_of_mem_take hmem
  have hexne : ex ≠ [] := List.ne_nil_of_mem (List.mem_of_mem_filter hitf)
  have hndne : ex.filter
      (fun x => !((get_stored_headlines storeJ).contains x.url)) ≠ [] :=
    List.ne_nil_of_mem hitf
  have hlnew : hl ∈ find_new_headlines storeL hs := List.mem_of_mem_take hln
  have hnew : find_new_headlines storeL hs ≠ [] := List.ne_nil_of_mem hlnew
  have hhs : hs ≠ [] := List.ne_nil_of_mem (List.mem_of_mem_filter hlnew)
  refine ⟨rfl, rfl, ?_, rfl, rfl, ?_, ?_, ?_⟩
  · simp [JapanArchitects.is_within_age_limit, JapanArchitects.MAX_ARTICLE_AGE_DAYS]
  · simp [Landezine.freshOk, Landezine.days_old, Landezine.MAX_ARTICLE_AGE_DAYS]
  · rw [ja_fetch_eq storeJ ex now hexne,
      if_neg (show ¬((ex.filter
        (fun x => !((get_stored_headlines storeJ).contains x.url))).isEmpty = true) by
          simpa using hndne)]
    refine List.mem_filter.mpr ⟨hmem, ?_⟩
    rw [hdate]
    rfl
  · rw [lz_fetch_eq resolve now storeL hs hhs hnew]
    apply lz_fold_mem_insert resolve now _ _ hl r hln hres _ hv
    rw [hrd]
    rfl

/-- C9 witness: hypotheses of the amended date theorem discharged at
dateless one-item inputs for both scrapers. -/
theorem date_handling_amended_witness :
    (⟨"u", "t", DateText.absent⟩ : JapanArchitects.Item)
        ∈ (([⟨"u", "t", DateText.absent⟩] :
            List JapanArchitects.Item).filter
          (fun x => !((get_stored_headlines []).contains x.url))).take
            JapanArchitects.MAX_NEW_ARTICLES ∧
    "h1" ∈ (find_new_headlines [] ["h1"]).take Landezine.max_new ∧
    Landezine.validate_article ⟨"T", "L", DateText.absent⟩ = true ∧
    ((⟨"u", "t", DateText.absent⟩ : JapanArchitects.Item)
        ∈ (JapanArchitects.fetch_articles [] [⟨"u", "t", DateText.absent⟩] 0).1 ∧
     (⟨"T", "L", DateText.absent⟩ : Landezine.Resolved)
        ∈ (Landezine.fetch_articles
            (fun _ => some ⟨"T", "L", DateText.absent⟩) 0 [] ["h1"]).1) :=
  ⟨by decide, by decide, by decide,
   (date_handling_amended 0 0 [] [⟨"u", "t", DateText.absent⟩]
      ⟨"u", "t", DateText.absent⟩ (by decide) rfl
      (fun _ => some ⟨"T", "L", DateText.absent⟩) [] ["h1"] "h1"
      (by decide) ⟨"T", "L", DateText.absent⟩ rfl rfl (by decide)).2.2.2.2.2.2⟩
